import Mathlib

/-!
Verification of the nango flow-catalog resolver, sync lifecycle orchestrator
and provider-config registry against their natural-language specification.

The definitions below are shallow embeddings of the TypeScript sources:
  - packages/webapp/src/pages/Integrations/providerConfigKey/Endpoints/Show.tsx
    (endpoint grouping and sorting, getIntegrationFlows, hasSimilarFlow,
    containsSameEndpoint)
  - packages/shared/lib/services/sync/orchestrator.service.ts
    (Orchestrator.create, Orchestrator.createSyncs)
  - packages/shared/lib/services/config.service.ts
    (ConfigService CRUD over provider configurations)
Database tables are modelled as Lean lists of rows, JavaScript truthiness of
optional strings is modelled explicitly, and the opaque encryption service is
modelled as a transformation that counts its applications.
-/

namespace Nango

/-- JavaScript truthiness of a possibly-undefined string: `undefined` and the
empty string are falsy, every other string is truthy. -/
def jsTruthyStr : Option String → Bool
  | none => false
  | some s => s ≠ ""

/-- One endpoint descriptor. In the source an endpoint is a single-entry
object `{ VERB: path }`; we model it as the pair of that entry. -/
structure FlowEndpoint where
  verb : String
  path : String
deriving DecidableEq, Repr

/-- A flow definition (`NangoSyncConfig`): name, type (the source compares the
`type` field against the string literals `'sync'` and `'action'`), return
model names, endpoint list, enabled flag, and the optional persisted id that
distinguishes installed flows from template-only flows. -/
structure NangoSyncConfig where
  name : String
  type : String
  returns : List String
  endpoints : List FlowEndpoint
  enabled : Bool
  id : Option Nat
deriving DecidableEq, Repr

/-- Embedding of `containsSameEndpoint` from Show.tsx (the flows API part).
The source reads `const endpointA = Object.entries(endpointObjA)` without the
`[0]` index, so `endpointA` is the whole entry list: `endpointA[0]` is the
`[verb, path]` pair, which JavaScript stringifies to the property key
`"verb,path"` when used as an index, and `endpointA[1]` is `undefined`.
The check `endpointObjB[endpointA[0]] && endpointObjB[endpointA[0]] === endpointA[1]`
therefore looks up the key `verb ++ "," ++ path` in the single-entry object
`endpointObjB` and compares the value with `undefined`. -/
def entryLookup (e : FlowEndpoint) (key : String) : Option String :=
  if e.verb = key then some e.path else none

def containsSameEndpoint (flowA flowB : NangoSyncConfig) : Bool :=
  flowA.endpoints.any fun ea =>
    flowB.endpoints.any fun eb =>
      jsTruthyStr (entryLookup eb (ea.verb ++ "," ++ ea.path)) &&
        entryLookup eb (ea.verb ++ "," ++ ea.path) == (none : Option String)

theorem jsTruthyStr_and_eq_none (v : Option String) :
    (jsTruthyStr v && v == (none : Option String)) = false := by
  cases v <;> simp [jsTruthyStr]

/-- The endpoint-overlap test of the source can never succeed: a truthy value
is never strictly equal to `undefined`. -/
theorem containsSameEndpoint_eq_false (flowA flowB : NangoSyncConfig) :
    containsSameEndpoint flowA flowB = false := by
  simp [containsSameEndpoint, jsTruthyStr_and_eq_none]

/-- Embedding of `hasSimilarFlow` from Show.tsx: a template flow is similar to
some flow of `list` if (a) same `type` and same `name`, or (b) the installed
flow is sync-type and `flow.returns.find(model => modelsName.has(model))` is
truthy (`modelsName` being the set of the template's return names; note that a
found empty-string model is falsy), or (c) `containsSameEndpoint`. -/
def hasSimilarFlow (templateFlow : NangoSyncConfig) (list : List NangoSyncConfig) : Bool :=
  list.any fun flow =>
    (flow.type == templateFlow.type && flow.name == templateFlow.name) ||
    (flow.type == "sync" &&
      jsTruthyStr (flow.returns.find? fun m => templateFlow.returns.contains m)) ||
    containsSameEndpoint flow templateFlow

/-- Embedding of the merge loop of `getIntegrationFlows`:
`finalFlows` starts as a copy of the installed flows and each template flow is
appended unless `hasSimilarFlow` reports a similar installed flow. -/
def buildFinalFlows (dbFlows templateFlows : List NangoSyncConfig) : List NangoSyncConfig :=
  templateFlows.foldl
    (fun acc templateFlow =>
      if hasSimilarFlow templateFlow dbFlows then acc else acc ++ [templateFlow])
    dbFlows

theorem buildFinalFlows_foldl_eq (dbFlows acc templateFlows : List NangoSyncConfig) :
    templateFlows.foldl
        (fun acc templateFlow =>
          if hasSimilarFlow templateFlow dbFlows then acc else acc ++ [templateFlow])
        acc =
      acc ++ templateFlows.filter (fun t => !hasSimilarFlow t dbFlows) := by
  induction templateFlows generalizing acc with
  | nil => simp
  | cons t ts ih =>
      by_cases h : hasSimilarFlow t dbFlows <;>
        simp [List.foldl_cons, h, ih, List.filter_cons]

/-- The appending loop is the installed flows followed by the filtered
templates. -/
theorem buildFinalFlows_eq_filter (dbFlows templateFlows : List NangoSyncConfig) :
    buildFinalFlows dbFlows templateFlows =
      dbFlows ++ templateFlows.filter (fun t => !hasSimilarFlow t dbFlows) :=
  buildFinalFlows_foldl_eq dbFlows dbFlows templateFlows

/-- Equivalence of a template flow and an installed flow as the claim words it:
same type and same name, or both sync-type with intersecting return-type-name
sets, or a shared identical (method, path) endpoint pair. -/
def claimEquivalent (t i : NangoSyncConfig) : Bool :=
  (t.type == i.type && t.name == i.name) ||
  (t.type == "sync" && i.type == "sync" && t.returns.any (fun m => i.returns.contains m)) ||
  t.endpoints.any (fun e => i.endpoints.any (fun e2 => e.verb == e2.verb && e.path == e2.path))

/-- Equivalence as the code actually computes it (amended claim): same type and
same name, or the installed flow is sync-type and its return-type names meet
the template's; the endpoint criterion never fires. -/
def amendedEquivalent (t i : NangoSyncConfig) : Bool :=
  (i.type == t.type && i.name == t.name) ||
  (i.type == "sync" && i.returns.any (fun m => t.returns.contains m))

theorem jsTruthyStr_find_eq_any (p : String → Bool) (l : List String)
    (h : ∀ m ∈ l, m ≠ "") : jsTruthyStr (l.find? p) = l.any p := by
  induction l with
  | nil => rfl
  | cons a as ih =>
      by_cases hp : p a
      · rw [List.find?_cons_of_pos _ hp]
        simp [jsTruthyStr, hp, h a (by simp)]
      · rw [List.find?_cons_of_neg _ hp]
        simp only [List.any_cons, hp, Bool.false_or]
        exact ih (fun m hm => h m (List.mem_cons_of_mem _ hm))

theorem hasSimilarFlow_eq_any (t : NangoSyncConfig) (dbFlows : List NangoSyncConfig)
    (h : ∀ fl ∈ dbFlows, ∀ m ∈ fl.returns, m ≠ "") :
    hasSimilarFlow t dbFlows = dbFlows.any (fun i => amendedEquivalent t i) := by
  induction dbFlows with
  | nil => rfl
  | cons i is ih =>
      simp only [hasSimilarFlow, List.any_cons] at *
      rw [containsSameEndpoint_eq_false,
        jsTruthyStr_find_eq_any _ _ (h i (List.mem_cons_self i is)),
        ih (fun fl hfl => h fl (List.mem_cons_of_mem _ hfl))]
      simp [amendedEquivalent]

theorem hasSimilarFlow_self (f : NangoSyncConfig) (l : List NangoSyncConfig)
    (hf : f ∈ l) : hasSimilarFlow f l = true := by
  unfold hasSimilarFlow
  rw [List.any_eq_true]
  exact ⟨f, hf, by simp⟩

/-- Template flow used in the C1 counterexample: action-type, but sharing a
return-type name with the installed sync `instA`. -/
def tmplA : NangoSyncConfig :=
  { name := "ta", type := "action", returns := ["M"],
    endpoints := [{ verb := "GET", path := "/ta" }], enabled := false, id := none }

def instA : NangoSyncConfig :=
  { name := "ia", type := "sync", returns := ["M"],
    endpoints := [{ verb := "GET", path := "/ia" }], enabled := true, id := some 1 }

/-- Template flow used in the C1 counterexample: shares the endpoint
(GET, /shared) with the installed flow `instB` and nothing else. -/
def tmplB : NangoSyncConfig :=
  { name := "tb", type := "sync", returns := ["B1"],
    endpoints := [{ verb := "GET", path := "/shared" }], enabled := false, id := none }

def instB : NangoSyncConfig :=
  { name := "ib", type := "sync", returns := ["B2"],
    endpoints := [{ verb := "GET", path := "/shared" }], enabled := true, id := some 2 }

/-- C1 counterexample: the claim's equivalence relation does not match the
code. `tmplA` is not claim-equivalent to `instA` (types differ, endpoints
differ), yet the code suppresses it (the returns-overlap branch only tests the
installed flow's type); `tmplB` is claim-equivalent to `instB` (identical
(GET, /shared) endpoint), yet the code keeps it (the endpoint comparison is
always false). -/
theorem catalog_resolution_counterexample :
    (claimEquivalent tmplA instA = false ∧ tmplA ∉ buildFinalFlows [instA] [tmplA])
    ∧ (claimEquivalent tmplB instB = true ∧ tmplB ∈ buildFinalFlows [instB] [tmplB]) := by
  decide

/-- C1 (amended): the catalog returned by the flow-resolution read path equals
the installed flows plus exactly those template flows with no equivalent
installed flow, where template T and installed I are equivalent iff (same type
and same name) OR (I is sync-type and I's return-type names meet T's); the
endpoint-pair criterion never causes suppression as implemented. Stated for
installed flows whose return-type names are non-empty strings (an empty-string
return name is falsy in the code's truthiness test). -/
theorem catalog_resolution_amended (dbFlows templateFlows : List NangoSyncConfig)
    (h : ∀ fl ∈ dbFlows, ∀ m ∈ fl.returns, m ≠ "") :
    buildFinalFlows dbFlows templateFlows =
      dbFlows ++ templateFlows.filter
        (fun t => !(dbFlows.any (fun i => amendedEquivalent t i))) := by
  rw [buildFinalFlows_eq_filter]
  congr 1
  apply List.filter_congr
  intro t _
  rw [hasSimilarFlow_eq_any t dbFlows h]

theorem catalog_resolution_amended_witness :
    buildFinalFlows [instA, instB] [tmplA, tmplB] =
      [instA, instB] ++ [tmplA, tmplB].filter
        (fun t => !([instA, instB].any (fun i => amendedEquivalent t i))) :=
  catalog_resolution_amended [instA, instB] [tmplA, tmplB] (by decide)

/-- C5: for every set of installed flows (no duplicates), every installed flow
appears in the resolved catalog output exactly once, regardless of what
template flows exist. -/
theorem catalog_completeness (dbFlows templateFlows : List NangoSyncConfig)
    (f : NangoSyncConfig) (hmem : f ∈ dbFlows) (hnd : dbFlows.Nodup) :
    (buildFinalFlows dbFlows templateFlows).count f = 1 := by
  rw [buildFinalFlows_eq_filter, List.count_append]
  have h1 : dbFlows.count f = 1 := List.count_eq_one_of_mem hnd hmem
  have h2 : (templateFlows.filter fun t => !hasSimilarFlow t dbFlows).count f = 0 := by
    rw [List.count_eq_zero]
    intro hf
    have hp := List.of_mem_filter hf
    rw [hasSimilarFlow_self f dbFlows hmem] at hp
    simp at hp
  omega

theorem catalog_completeness_witness :
    (buildFinalFlows
        [{ name := "w5", type := "sync", returns := ["W"],
           endpoints := [{ verb := "GET", path := "/w" }], enabled := true, id := some 9 }]
        [{ name := "w5t", type := "sync", returns := ["W"],
           endpoints := [{ verb := "POST", path := "/w" }], enabled := false, id := none }]).count
      { name := "w5", type := "sync", returns := ["W"],
        endpoints := [{ verb := "GET", path := "/w" }], enabled := true, id := some 9 } = 1 :=
  catalog_completeness _ _ _ (by decide) (by decide)

/-! Sync lifecycle orchestrator (orchestrator.service.ts). The persisted Sync
records and the error activity-log entries are the observable state; the
continuous-sync client is the external failure source, modelled by a predicate
`startOk connectionId syncName` saying whether `startContinuous` succeeds. -/

structure OrchState where
  syncs : List (Nat × String)
  errorLogs : Nat
deriving DecidableEq, Repr

structure CreateSyncArgs where
  connections : List Nat
  providerConfigKey : String
  environmentId : Nat
  syncName : String
deriving DecidableEq, Repr

/-- Embedding of the `for (const connection of connections)` loop of
`Orchestrator.create` together with its try/catch: `createSync` persists a
Sync record for the current connection, then `startContinuous` is awaited; an
exception there leaves the loop, is caught, logged as an error activity entry,
and turned into a `false` return value. Reaching the end of the loop returns
`true`. -/
def createLoop (startOk : Nat → String → Bool) (syncName : String) :
    List Nat → OrchState → OrchState × Bool
  | [], st => (st, true)
  | c :: rest, st =>
      let st1 : OrchState := { st with syncs := st.syncs ++ [(c, syncName)] }
      if startOk c syncName then
        createLoop startOk syncName rest st1
      else
        ({ st1 with errorLogs := st1.errorLogs + 1 }, false)

/-- Embedding of `Orchestrator.createSyncs`: iterate over the requests with a
`success` flag that is cleared whenever a request's `create` returns false,
never leaving the loop early. -/
def createSyncsLoop (startOk : Nat → String → Bool) :
    List CreateSyncArgs → OrchState → Bool → OrchState × Bool
  | [], st, success => (st, success)
  | a :: rest, st, success =>
      let r := createLoop startOk a.syncName a.connections st
      createSyncsLoop startOk rest r.1 (if !r.2 then false else success)

def createSyncs (startOk : Nat → String → Bool) (syncArgs : List CreateSyncArgs)
    (st : OrchState) : OrchState × Bool :=
  createSyncsLoop startOk syncArgs st true

/-- Specification-side rendering of `createSyncs`: process every request and
collect the individual results in a list. Used to compare the code's
aggregate boolean with per-request outcomes. -/
def createSyncsSpec (startOk : Nat → String → Bool) :
    List CreateSyncArgs → OrchState → OrchState × List Bool
  | [], st => (st, [])
  | a :: rest, st =>
      let r := createLoop startOk a.syncName a.connections st
      let rs := createSyncsSpec startOk rest r.1
      (rs.1, r.2 :: rs.2)

theorem createSyncsLoop_eq_spec (startOk : Nat → String → Bool)
    (syncArgs : List CreateSyncArgs) (st : OrchState) (success : Bool) :
    createSyncsLoop startOk syncArgs st success =
      ((createSyncsSpec startOk syncArgs st).1,
        success && (createSyncsSpec startOk syncArgs st).2.all id) := by
  induction syncArgs generalizing st success with
  | nil => simp [createSyncsLoop, createSyncsSpec]
  | cons a rest ih =>
      simp only [createSyncsLoop, createSyncsSpec, List.all_cons, ih]
      cases h : (createLoop startOk a.syncName a.connections st).2 <;>
        cases success <;> simp [id]

/-- C4: `createSyncs` attempts every request even when an earlier request
failed (the final state is the state of processing the whole request list),
and the returned boolean is true iff every individual request succeeded. -/
theorem createSyncs_no_short_circuit (startOk : Nat → String → Bool)
    (syncArgs : List CreateSyncArgs) (st : OrchState) :
    createSyncs startOk syncArgs st =
      ((createSyncsSpec startOk syncArgs st).1,
        (createSyncsSpec startOk syncArgs st).2.all id) := by
  rw [createSyncs, createSyncsLoop_eq_spec]
  simp

/-- C2 counterexample: with two connections 0 and 1 and the sync-start call
failing for connection 0, `create` returns false but connection 1 has no
persisted Sync record — the exception leaves the per-connection loop, so
connections after the failing one are not processed, contradicting the claim
that every connection other than the failing one still gets a Sync record. -/
theorem partial_failure_counterexample :
    (createLoop (fun c _ => decide (c ≠ 0)) "s" [0, 1] ⟨[], 0⟩).2 = false
    ∧ ((1, "s") ∉ (createLoop (fun c _ => decide (c ≠ 0)) "s" [0, 1] ⟨[], 0⟩).1.syncs) := by
  decide

/-- C2 (amended): if the sync-start call fails at connection `cf` and
succeeded for every connection before it, `create` returns false, the failing
connection and each one before it have a persisted Sync record (the record is
created before the start call), the connections submitted after `cf` are not
processed at all, the exception is caught and logged as exactly one error
activity entry, and `createSyncs` still attempts every remaining request
starting from the post-failure state while returning false overall. -/
theorem create_partial_failure_amended (startOk : Nat → String → Bool)
    (syncName : String) (pre post : List Nat) (cf : Nat) (st : OrchState)
    (hbefore : ∀ c ∈ pre, startOk c syncName = true)
    (hfail : startOk cf syncName = false) :
    (createLoop startOk syncName (pre ++ cf :: post) st).2 = false
    ∧ (createLoop startOk syncName (pre ++ cf :: post) st).1.syncs =
        st.syncs ++ (pre ++ [cf]).map (fun c => (c, syncName))
    ∧ (createLoop startOk syncName (pre ++ cf :: post) st).1.errorLogs =
        st.errorLogs + 1
    ∧ ∀ (pck : String) (env : Nat) (rest : List CreateSyncArgs),
        createSyncs startOk
            ({ connections := pre ++ cf :: post, providerConfigKey := pck,
               environmentId := env, syncName := syncName } :: rest) st =
          ((createSyncsSpec startOk rest
              (createLoop startOk syncName (pre ++ cf :: post) st).1).1, false) := by
  have main : ∀ (st : OrchState),
      (createLoop startOk syncName (pre ++ cf :: post) st).2 = false
      ∧ (createLoop startOk syncName (pre ++ cf :: post) st).1.syncs =
          st.syncs ++ (pre ++ [cf]).map (fun c => (c, syncName))
      ∧ (createLoop startOk syncName (pre ++ cf :: post) st).1.errorLogs =
          st.errorLogs + 1 := by
    induction pre with
    | nil =>
        intro st
        simp [createLoop, hfail]
    | cons c pre' ih =>
        intro st
        have hc : startOk c syncName = true := hbefore c (List.mem_cons_self c pre')
        have hbefore' : ∀ c' ∈ pre', startOk c' syncName = true :=
          fun c' hc' => hbefore c' (List.mem_cons_of_mem _ hc')
        have ih' := ih hbefore' { st with syncs := st.syncs ++ [(c, syncName)] }
        simp only [List.cons_append, createLoop, hc, if_pos, List.append_eq] at *
        refine ⟨ih'.1, ?_, ih'.2.2⟩
        rw [ih'.2.1]
        simp
  refine ⟨(main st).1, (main st).2.1, (main st).2.2, ?_⟩
  intro pck env rest
  rw [createSyncs]
  show createSyncsLoop startOk (_ :: rest) st true = _
  simp only [createSyncsLoop]
  rw [createSyncsLoop_eq_spec, (main st).1]
  simp

theorem create_partial_failure_amended_witness :
    (createLoop (fun c _ => decide (c ≠ 0)) "s" ([5] ++ 0 :: [7]) ⟨[], 0⟩).2 = false
    ∧ (createLoop (fun c _ => decide (c ≠ 0)) "s" ([5] ++ 0 :: [7]) ⟨[], 0⟩).1.syncs =
        (⟨[], 0⟩ : OrchState).syncs ++ ([5] ++ [0]).map (fun c => (c, "s"))
    ∧ (createLoop (fun c _ => decide (c ≠ 0)) "s" ([5] ++ 0 :: [7]) ⟨[], 0⟩).1.errorLogs =
        (⟨[], 0⟩ : OrchState).errorLogs + 1
    ∧ createSyncs (fun c _ => decide (c ≠ 0))
          [{ connections := [5] ++ 0 :: [7], providerConfigKey := "pk",
             environmentId := 7, syncName := "s" }] ⟨[], 0⟩ =
        ((createSyncsSpec (fun c _ => decide (c ≠ 0)) []
            (createLoop (fun c _ => decide (c ≠ 0)) "s" ([5] ++ 0 :: [7]) ⟨[], 0⟩).1).1,
          false) :=
  have h := create_partial_failure_amended (fun c _ => decide (c ≠ 0)) "s" [5] [7] 0 ⟨[], 0⟩
    (by decide) (by decide)
  ⟨h.1, h.2.1, h.2.2.1, h.2.2.2 "pk" 7 []⟩

/-! Provider config registry (config.service.ts). The `_nango_configs` and
`_nango_connections` tables are lists of rows. The opaque encryption service
(encryptionManager) is modelled by counters recording how many times
encryption respectively decryption has been applied to a row. -/

structure ProviderConfigRow where
  id : Option Nat
  environment_id : Nat
  unique_key : String
  provider : String
  oauth_client_secret : Option String
  deleted : Bool
  deleted_at : Option Nat
  encryptCount : Nat
  decryptCount : Nat
deriving DecidableEq, Repr

/-- Opaque `encryptionManager.encryptProviderConfig`, modelled as one
application of encryption to the row. -/
def encryptProviderConfig (c : ProviderConfigRow) : ProviderConfigRow :=
  { c with encryptCount := c.encryptCount + 1 }

/-- Opaque `encryptionManager.decryptProviderConfig`, modelled as one
application of decryption to the row. -/
def decryptProviderConfig (c : ProviderConfigRow) : ProviderConfigRow :=
  { c with decryptCount := c.decryptCount + 1 }

/-- Embedding of `ConfigService.getById`: first non-deleted row with the id,
decrypted. -/
def getById (table : List ProviderConfigRow) (i : Nat) : Option ProviderConfigRow :=
  (table.find? fun r => r.id == some i && !r.deleted).map decryptProviderConfig

/-- Embedding of `ConfigService.getProviderName`: the rows are filtered by
`unique_key` and `deleted: false` only — no environment filter — and the first
result's provider is returned. -/
def getProviderName (table : List ProviderConfigRow) (providerConfigKey : String) :
    Option String :=
  match table.filter (fun r => r.unique_key == providerConfigKey && !r.deleted) with
  | [] => none
  | r :: _ => some r.provider

/-- Embedding of `ConfigService.createProviderConfig`: the row is passed
through encryption only when `config.oauth_client_secret` is truthy, then
inserted; the inserted row is returned (`returning('*')`). -/
def createProviderConfig (table : List ProviderConfigRow) (config : ProviderConfigRow) :
    List ProviderConfigRow × ProviderConfigRow :=
  let configToInsert :=
    if jsTruthyStr config.oauth_client_secret then encryptProviderConfig config else config
  (table ++ [configToInsert], configToInsert)

/-- Embedding of `ConfigService.createEmptyProviderConfig`: count the
non-deleted rows with this provider in this environment; the unique key is the
bare provider name when the count is zero, else the provider name suffixed
with `-` and the (opaque random, lower-cased) `nanoid(4)` disambiguator. -/
def createEmptyProviderConfig (table : List ProviderConfigRow) (provider : String)
    (environment_id : Nat) (suffix : String) :
    List ProviderConfigRow × ProviderConfigRow :=
  let cnt := table.countP fun r =>
    r.provider == provider && r.environment_id == environment_id && !r.deleted
  createProviderConfig table
    { id := none, environment_id := environment_id,
      unique_key := if cnt = 0 then provider else provider ++ "-" ++ suffix,
      provider := provider, oauth_client_secret := none, deleted := false,
      deleted_at := none, encryptCount := 0, decryptCount := 0 }

/-- Embedding of `ConfigService.editProviderConfig`: the update payload is the
config passed through encryption unconditionally; rows matching (id,
environment_id, not deleted) are overwritten with it, and the count of
affected rows is returned. -/
def editProviderConfig (table : List ProviderConfigRow) (config : ProviderConfigRow) :
    List ProviderConfigRow × Nat :=
  let matched := fun r : ProviderConfigRow =>
    r.id == config.id && r.environment_id == config.environment_id && !r.deleted
  (table.map fun r => if matched r then encryptProviderConfig config else r,
    table.countP matched)

structure ConnectionRow where
  id : Nat
  provider_config_key : String
  environment_id : Nat
  deleted : Bool
  deleted_at : Option Nat
deriving DecidableEq, Repr

/-- The registry's database: the provider-config table, the connections table,
and the rest of the store (sync rows, schedules, flow configs, files), which
the first three deletion steps act on through opaque functions. -/
structure RegistryDb (α : Type) where
  configs : List ProviderConfigRow
  connections : List ConnectionRow
  rest : α
deriving Repr

/-- Embedding of `ConfigService.deleteProviderConfig`: (1) delete the syncs of
the provider config, (2) on cloud, delete the sync files, (3) delete the flow
config rows — all three modelled as opaque steps on the rest of the store —
then (4) soft-delete the config row where (id, deleted: false); if that update
reports zero affected rows the operation returns false and stops; otherwise
(5) the non-deleted connection rows under (providerConfigKey, environmentId)
are soft-deleted and true is returned. -/
def deleteProviderConfig {α : Type} (deleteSyncsStep deleteFilesStep deleteFlowCfgStep : α → α)
    (isCloud : Bool) (db : RegistryDb α) (i environmentId : Nat)
    (providerConfigKey : String) (now : Nat) : RegistryDb α × Bool :=
  let rest1 := deleteSyncsStep db.rest
  let rest2 := if isCloud then deleteFilesStep rest1 else rest1
  let rest3 := deleteFlowCfgStep rest2
  let matched := fun r : ProviderConfigRow => r.id == some i && !r.deleted
  let updated := db.configs.countP matched
  let configs2 := db.configs.map fun r =>
    if matched r then { r with deleted := true, deleted_at := some now } else r
  if updated = 0 then
    ({ configs := configs2, connections := db.connections, rest := rest3 }, false)
  else
    ({ configs := configs2,
       connections := db.connections.map fun c =>
         if c.provider_config_key == providerConfigKey &&
             c.environment_id == environmentId && !c.deleted then
           { c with deleted := true, deleted_at := some now }
         else c,
       rest := rest3 }, true)

theorem map_update_of_countP_zero {α : Type} (p : α → Bool) (f : α → α)
    (l : List α) (h : l.countP p = 0) :
    (l.map fun r => if p r then f r else r) = l := by
  induction l with
  | nil => rfl
  | cons a as ih =>
      rw [List.countP_cons] at h
      have hpa : p a = false := by
        cases hpq : p a
        · rfl
        · rw [hpq] at h; simp at h
      have has : as.countP p = 0 := by rw [hpa] at h; simpa using h
      simp [hpa, ih has]

/-- C3: when the soft-delete update of the configuration row reports zero
affected rows, `deleteProviderConfig` returns false, the connection rows are
left unmodified (and so is the config table); and in general the connection
rows are soft-deleted only when the configuration row's soft-delete affected
at least one row. -/
theorem delete_provider_config_commit_point {α : Type}
    (dS dF dC : α → α) (isCloud : Bool) (db : RegistryDb α)
    (i environmentId : Nat) (providerConfigKey : String) (now : Nat)
    (h0 : db.configs.countP (fun r => r.id == some i && !r.deleted) = 0) :
    (deleteProviderConfig dS dF dC isCloud db i environmentId providerConfigKey now).2 = false
    ∧ (deleteProviderConfig dS dF dC isCloud db i environmentId providerConfigKey now).1.connections
        = db.connections
    ∧ (deleteProviderConfig dS dF dC isCloud db i environmentId providerConfigKey now).1.configs
        = db.configs
    ∧ ∀ (db2 : RegistryDb α),
        (deleteProviderConfig dS dF dC isCloud db2 i environmentId providerConfigKey now).1.connections
            ≠ db2.connections →
          (deleteProviderConfig dS dF dC isCloud db2 i environmentId providerConfigKey now).2 = true := by
  refine ⟨?_, ?_, ?_, ?_⟩
  · simp [deleteProviderConfig, h0]
  · simp [deleteProviderConfig, h0]
  · simp only [deleteProviderConfig, h0, if_pos]
    exact map_update_of_countP_zero _ _ _ h0
  · intro db2 hne
    by_cases h2 : db2.configs.countP (fun r => r.id == some i && !r.deleted) = 0
    · exact absurd (by simp [deleteProviderConfig, h2]) hne
    · simp [deleteProviderConfig, h2]

theorem delete_provider_config_commit_point_witness :
    (deleteProviderConfig (α := Nat) id id id true
        { configs := [{ id := some 1, environment_id := 3, unique_key := "k",
                        provider := "p", oauth_client_secret := none, deleted := false,
                        deleted_at := none, encryptCount := 0, decryptCount := 0 }],
          connections := [{ id := 10, provider_config_key := "k", environment_id := 3,
                            deleted := false, deleted_at := none }],
          rest := 0 } 2 3 "k" 99).2 = false
    ∧ (deleteProviderConfig (α := Nat) id id id true
        { configs := [{ id := some 1, environment_id := 3, unique_key := "k",
                        provider := "p", oauth_client_secret := none, deleted := false,
                        deleted_at := none, encryptCount := 0, decryptCount := 0 }],
          connections := [{ id := 10, provider_config_key := "k", environment_id := 3,
                            deleted := false, deleted_at := none }],
          rest := 0 } 2 3 "k" 99).1.connections =
        [{ id := 10, provider_config_key := "k", environment_id := 3,
           deleted := false, deleted_at := none }] :=
  ⟨(delete_provider_config_commit_point id id id true _ 2 3 "k" 99 (by decide)).1,
    (delete_provider_config_commit_point id id id true _ 2 3 "k" 99 (by decide)).2.1⟩

/-- A provider configuration carrying no secret, used for C7. -/
def cfgNoSecret : ProviderConfigRow :=
  { id := some 1, environment_id := 1, unique_key := "k", provider := "p",
    oauth_client_secret := none, deleted := false, deleted_at := none,
    encryptCount := 0, decryptCount := 0 }

/-- C7 counterexample: on the edit path the configuration is passed through
encryption unconditionally. For a configuration with no secret present, the
update payload written by `editProviderConfig` has been encrypted once, so the
configuration is not persisted as given, contradicting the claim that
encryption happens only when a secret is present for create and edit alike. -/
theorem credential_encryption_counterexample :
    jsTruthyStr cfgNoSecret.oauth_client_secret = false
    ∧ (editProviderConfig [cfgNoSecret] cfgNoSecret).1 =
        [encryptProviderConfig cfgNoSecret]
    ∧ (editProviderConfig [cfgNoSecret] cfgNoSecret).1 ≠ [cfgNoSecret]
    ∧ (encryptProviderConfig cfgNoSecret).encryptCount = 1 := by
  decide

/-- C7 (amended): on create, the credential material is encrypted exactly once
when a (truthy) secret is present and the configuration is persisted as given
otherwise; on edit, the update payload is passed through encryption exactly
once unconditionally, whether or not a secret is present; every read through
`getById` decrypts the found row exactly once. -/
theorem credential_encryption_amended (table : List ProviderConfigRow)
    (config : ProviderConfigRow) :
    ((createProviderConfig table config).2.encryptCount =
        config.encryptCount + (if jsTruthyStr config.oauth_client_secret then 1 else 0))
    ∧ (jsTruthyStr config.oauth_client_secret = false →
        (createProviderConfig table config).2 = config
        ∧ (createProviderConfig table config).1 = table ++ [config])
    ∧ ((editProviderConfig table config).1 =
        table.map fun r =>
          if r.id == config.id && r.environment_id == config.environment_id && !r.deleted
          then encryptProviderConfig config else r)
    ∧ (encryptProviderConfig config).encryptCount = config.encryptCount + 1
    ∧ ∀ (i : Nat) (row : ProviderConfigRow), getById table i = some row →
        ∃ r0, table.find? (fun r => r.id == some i && !r.deleted) = some r0
          ∧ row = decryptProviderConfig r0
          ∧ row.decryptCount = r0.decryptCount + 1 := by
  refine ⟨?_, ?_, rfl, rfl, ?_⟩
  · by_cases h : jsTruthyStr config.oauth_client_secret <;>
      simp [createProviderConfig, encryptProviderConfig, h]
  · intro h
    simp [createProviderConfig, h]
  · intro i row hrow
    rw [getById, Option.map_eq_some'] at hrow
    obtain ⟨r0, hfind, hdec⟩ := hrow
    exact ⟨r0, hfind, hdec.symm, by rw [← hdec]; rfl⟩

theorem credential_encryption_amended_witness :
    (createProviderConfig [] cfgNoSecret).2 = cfgNoSecret
    ∧ (createProviderConfig [] cfgNoSecret).1 = [] ++ [cfgNoSecret] :=
  (credential_encryption_amended [] cfgNoSecret).2.1 (by decide)

/-- C8: when no non-deleted configuration row for the provider exists in the
environment, the empty provider configuration is created with the bare
provider name as its unique key; otherwise the unique key is the provider name
suffixed with the random disambiguator. -/
theorem empty_config_unique_key (table : List ProviderConfigRow) (provider : String)
    (environment_id : Nat) (suffix : String) :
    ((¬ ∃ r ∈ table, r.provider = provider ∧ r.environment_id = environment_id
        ∧ r.deleted = false) →
      (createEmptyProviderConfig table provider environment_id suffix).2.unique_key = provider)
    ∧ ((∃ r ∈ table, r.provider = provider ∧ r.environment_id = environment_id
        ∧ r.deleted = false) →
      (createEmptyProviderConfig table provider environment_id suffix).2.unique_key =
        provider ++ "-" ++ suffix) := by
  constructor
  · intro hne
    have h0 : (table.countP fun r =>
        r.provider == provider && r.environment_id == environment_id && !r.deleted) = 0 := by
      rw [List.countP_eq_zero]
      intro r hr hc
      simp only [Bool.and_eq_true, beq_iff_eq, Bool.not_eq_true'] at hc
      exact hne ⟨r, hr, hc.1.1, hc.1.2, hc.2⟩
    simp [createEmptyProviderConfig, createProviderConfig, jsTruthyStr, h0]
  · intro hex
    obtain ⟨r, hr, hp, he, hd⟩ := hex
    have h0 : (table.countP fun r =>
        r.provider == provider && r.environment_id == environment_id && !r.deleted) ≠ 0 := by
      have : 0 < table.countP fun r =>
          r.provider == provider && r.environment_id == environment_id && !r.deleted :=
        List.countP_pos_iff.mpr ⟨r, hr, by simp [hp, he, hd]⟩
      omega
    simp [createEmptyProviderConfig, createProviderConfig, jsTruthyStr, h0]

theorem empty_config_unique_key_witness :
    (createEmptyProviderConfig [] "github" 1 "ab12").2.unique_key = "github"
    ∧ (createEmptyProviderConfig
        [{ id := some 1, environment_id := 1, unique_key := "github",
           provider := "github", oauth_client_secret := none, deleted := false,
           deleted_at := none, encryptCount := 0, decryptCount := 0 }]
        "github" 1 "ab12").2.unique_key = "github" ++ "-" ++ "ab12" :=
  ⟨(empty_config_unique_key [] "github" 1 "ab12").1 (by simp),
    (empty_config_unique_key _ "github" 1 "ab12").2
      ⟨{ id := some 1, environment_id := 1, unique_key := "github",
         provider := "github", oauth_client_secret := none, deleted := false,
         deleted_at := none, encryptCount := 0, decryptCount := 0 },
        by simp, rfl, rfl, rfl⟩⟩

theorem getProviderName_env_map (table : List ProviderConfigRow) (key : String)
    (f : Nat → Nat) :
    getProviderName (table.map fun row => { row with environment_id := f row.environment_id })
        key = getProviderName table key := by
  have hfilter : ∀ l : List ProviderConfigRow,
      (l.map fun row => { row with environment_id := f row.environment_id }).filter
          (fun r => r.unique_key == key && !r.deleted)
        = (l.filter (fun r => r.unique_key == key && !r.deleted)).map
            (fun row => { row with environment_id := f row.environment_id }) := by
    intro l
    induction l with
    | nil => rfl
    | cons a as ih =>
        by_cases h : (a.unique_key == key && !a.deleted) = true <;>
          simp [List.filter_cons, h, ih]
  unfold getProviderName
  rw [hfilter]
  cases table.filter (fun r => r.unique_key == key && !r.deleted) <;> rfl

/-- C9: `getProviderName` looks a configuration up by unique key alone,
ignoring the environment: any non-deleted row carrying the key — whatever its
environment — resolves, and remapping every row's environment id arbitrarily
does not change the result. -/
theorem get_provider_name_ignores_environment (table : List ProviderConfigRow)
    (key : String) (r : ProviderConfigRow) (hmem : r ∈ table)
    (hk : r.unique_key = key) (hd : r.deleted = false)
    (huniq : ∀ r' ∈ table, r'.unique_key = key → r'.deleted = false →
      r'.provider = r.provider) :
    getProviderName table key = some r.provider
    ∧ ∀ f : Nat → Nat,
        getProviderName
            (table.map fun row => { row with environment_id := f row.environment_id }) key =
          getProviderName table key := by
  refine ⟨?_, fun f => getProviderName_env_map table key f⟩
  have hrf : r ∈ table.filter (fun x => x.unique_key == key && !x.deleted) :=
    List.mem_filter.mpr ⟨hmem, by simp [hk, hd]⟩
  cases hfl : table.filter (fun x => x.unique_key == key && !x.deleted) with
  | nil => rw [hfl] at hrf; exact absurd hrf (List.not_mem_nil r)
  | cons a as =>
      have ha : a ∈ table.filter (fun x => x.unique_key == key && !x.deleted) := by
        rw [hfl]; exact List.mem_cons_self a as
      have hamem := List.mem_of_mem_filter ha
      have hap := List.of_mem_filter ha
      simp only [Bool.and_eq_true, beq_iff_eq, Bool.not_eq_true'] at hap
      unfold getProviderName
      rw [hfl]
      exact congrArg some (huniq a hamem hap.1 hap.2)

theorem get_provider_name_ignores_environment_witness :
    getProviderName
        [{ id := some 1, environment_id := 42, unique_key := "k",
           provider := "github", oauth_client_secret := none, deleted := false,
           deleted_at := none, encryptCount := 0, decryptCount := 0 }] "k" =
      some "github" :=
  (get_provider_name_ignores_environment _ "k"
      { id := some 1, environment_id := 42, unique_key := "k",
        provider := "github", oauth_client_secret := none, deleted := false,
        deleted_at := none, encryptCount := 0, decryptCount := 0 }
      (by simp) rfl rfl (by decide)).1

/-! Endpoint grouping and sorting (the `byGroup` memo of Show.tsx). JavaScript
`path.split('/')` and string `>` are modelled structurally on the character
list so that every definition evaluates inside the kernel: `splitSlashAux`
has exactly the semantics of `String.prototype.split('/')` (the empty string
splits to `[""]`, a leading separator yields a leading empty segment), and
`jsStrLt` is lexicographic comparison by character code, which agrees with
the JavaScript code-unit comparison on the ASCII paths involved. -/

def splitSlashAux : List Char → List (List Char)
  | [] => [[]]
  | c :: cs =>
      let r := splitSlashAux cs
      if c = '/' then [] :: r
      else
        match r with
        | [] => [[c]]
        | s :: ss => (c :: s) :: ss

def jsSplitSlash (s : String) : List String :=
  (splitSlashAux s.toList).map List.asString

def charListLt : List Char → List Char → Bool
  | [], [] => false
  | [], _ :: _ => true
  | _ :: _, [] => false
  | a :: as, b :: bs =>
      if a.toNat < b.toNat then true
      else if b.toNat < a.toNat then false
      else charListLt as bs

def jsStrLt (a b : String) : Bool := charListLt a.toList b.toList

def allowedGroup : List String := ["customers", "invoices", "payments", "tickets"]

/-- A `{ ...flow, endpoint }` entry pushed into a group. -/
structure FlowWithEndpoint where
  flow : NangoSyncConfig
  endpoint : FlowEndpoint
deriving DecidableEq, Repr

/-- The group an endpoint lands in: `paths[1]` of `path.split('/')`; a missing
or empty (falsy) segment means the endpoint is skipped (`continue`), an
allowed segment is its own group, anything else goes to "others". -/
def groupNameOf (e : FlowEndpoint) : Option String :=
  match (jsSplitSlash e.path)[1]? with
  | none => none
  | some p => if p = "" then none else some (if allowedGroup.contains p then p else "others")

/-- Append an entry to the named group of the insertion-ordered group list,
creating the group at the end if absent (JavaScript object keys preserve
insertion order for these non-numeric keys). -/
def pushToGroup (tmp : List (String × List FlowWithEndpoint)) (g : String)
    (x : FlowWithEndpoint) : List (String × List FlowWithEndpoint) :=
  match tmp with
  | [] => [(g, [x])]
  | (k, xs) :: rest =>
      if k = g then (k, xs ++ [x]) :: rest else (k, xs) :: pushToGroup rest g x

/-- The inner `for (const endpoint of flow.endpoints)` loop of the grouping. -/
def addFlowToGroups (tmp : List (String × List FlowWithEndpoint))
    (flow : NangoSyncConfig) : List (String × List FlowWithEndpoint) :=
  flow.endpoints.foldl
    (fun acc e =>
      match groupNameOf e with
      | none => acc
      | some g => pushToGroup acc g { flow := flow, endpoint := e })
    tmp

def buildGroups (flows : List NangoSyncConfig) : List (String × List FlowWithEndpoint) :=
  flows.foldl addFlowToGroups []

/-- Number of path separators: `(path.match(/\x2f/g) || []).length` counts the
occurrences of the slash character. -/
def sepCount (p : String) : Nat := p.toList.count '/'

/-- Embedding of the sort comparator of `byGroup`: ascending separator count,
then the four special-cased verb comparisons, then `a.path > b.path ? 1 : -1`. -/
def compareEndpoints (a b : FlowEndpoint) : Int :=
  if sepCount a.path > sepCount b.path then 1
  else if sepCount a.path < sepCount b.path then -1
  else if a.verb == "GET" && b.verb != "GET" then -1
  else if a.verb == "POST" && b.verb == "PUT" then -1
  else if a.verb == "PUT" && b.verb == "PATCH" then -1
  else if a.verb == "PATCH" && b.verb == "DELETE" then -1
  else if jsStrLt b.path a.path then 1 else -1

def insertStable {β : Type} (le : β → β → Bool) (x : β) : List β → List β
  | [] => [x]
  | y :: ys => if le x y then x :: y :: ys else y :: insertStable le x ys

/-- Stable insertion sort, modelling `Array.prototype.sort` (ES2019 requires
sort stability; for the inconsistent comparator below the result of the
JavaScript sort is implementation-defined, and a stable sort is the canonical
reading of the specification's determinism requirement). -/
def stableSort {β : Type} (le : β → β → Bool) (l : List β) : List β :=
  l.foldr (insertStable le) []

def sortGroupFlows (l : List FlowWithEndpoint) : List FlowWithEndpoint :=
  stableSort (fun a b => decide (compareEndpoints a.endpoint b.endpoint ≤ 0)) l

/-- The grouped, sorted presentation computed by the `byGroup` memo. -/
def byGroup (flows : List NangoSyncConfig) : List (String × List FlowWithEndpoint) :=
  (buildGroups flows).map fun g => (g.1, sortGroupFlows g.2)

def flowGetCust : NangoSyncConfig :=
  { name := "fg", type := "sync", returns := [], enabled := true, id := some 3,
    endpoints := [{ verb := "GET", path := "/customers" }] }

def flowPostCust : NangoSyncConfig :=
  { name := "fp", type := "action", returns := [], enabled := true, id := some 4,
    endpoints := [{ verb := "POST", path := "/customers" }] }

/-- C6 counterexample: the comparator reports "first argument sorts first" for
GET /customers versus POST /customers in BOTH argument orders (the verb rules
only fire with the earlier verb on the left; the reversed comparison falls
through to the path rule, which returns -1 on equal paths), so it does not
order the two entries regardless of their input order: in the grouped
presentation of [POST /customers, GET /customers] the POST entry stays first. -/
theorem sort_tie_break_counterexample :
    compareEndpoints { verb := "POST", path := "/customers" }
        { verb := "GET", path := "/customers" } = -1
    ∧ compareEndpoints { verb := "GET", path := "/customers" }
        { verb := "POST", path := "/customers" } = -1
    ∧ byGroup [flowPostCust, flowGetCust] =
        [("customers",
          [{ flow := flowPostCust, endpoint := { verb := "POST", path := "/customers" } },
           { flow := flowGetCust, endpoint := { verb := "GET", path := "/customers" } }])] := by
  decide

/-- C6 (amended): endpoints with strictly fewer path separators sort first
regardless of input order (so GET /a sorts before GET /a/b); on equal
separator counts the comparator returns -1 whenever the first argument's verb
is GET and the second's is not, and likewise for the adjacent pairs POST/PUT,
PUT/PATCH and PATCH/DELETE — but only with the earlier verb as the first
argument, so on identical paths both comparison orders return -1 and the
stable sort keeps whichever entry came first in the input. -/
theorem sort_tie_break_amended (a b : FlowEndpoint) :
    (sepCount a.path < sepCount b.path →
      compareEndpoints a b = -1 ∧ compareEndpoints b a = 1)
    ∧ (sepCount a.path = sepCount b.path → a.verb = "GET" → b.verb ≠ "GET" →
      compareEndpoints a b = -1)
    ∧ (sepCount a.path = sepCount b.path →
      (a.verb = "POST" ∧ b.verb = "PUT") ∨ (a.verb = "PUT" ∧ b.verb = "PATCH")
        ∨ (a.verb = "PATCH" ∧ b.verb = "DELETE") →
      compareEndpoints a b = -1)
    ∧ (sortGroupFlows
          [{ flow := flowPostCust, endpoint := { verb := "POST", path := "/customers" } },
           { flow := flowGetCust, endpoint := { verb := "GET", path := "/customers" } }] =
          [{ flow := flowPostCust, endpoint := { verb := "POST", path := "/customers" } },
           { flow := flowGetCust, endpoint := { verb := "GET", path := "/customers" } }]
      ∧ sortGroupFlows
          [{ flow := flowGetCust, endpoint := { verb := "GET", path := "/customers" } },
           { flow := flowPostCust, endpoint := { verb := "POST", path := "/customers" } }] =
          [{ flow := flowGetCust, endpoint := { verb := "GET", path := "/customers" } },
           { flow := flowPostCust, endpoint := { verb := "POST", path := "/customers" } }]) := by
  refine ⟨?_, ?_, ?_, by decide⟩
  · intro h
    have h2 : ¬ sepCount b.path < sepCount a.path := Nat.lt_asymm h
    constructor
    · simp [compareEndpoints, h, h2]
    · simp [compareEndpoints, h, h2]
  · intro h hA hB
    have h1 : ¬ sepCount a.path > sepCount b.path := by omega
    have h2 : ¬ sepCount a.path < sepCount b.path := by omega
    simp [compareEndpoints, h1, h2, hA, hB]
  · intro h hv
    have h1 : ¬ sepCount a.path > sepCount b.path := by omega
    have h2 : ¬ sepCount a.path < sepCount b.path := by omega
    rcases hv with ⟨hA, hB⟩ | ⟨hA, hB⟩ | ⟨hA, hB⟩ <;>
      simp [compareEndpoints, h1, h2, hA, hB]

theorem sort_tie_break_amended_witness :
    compareEndpoints { verb := "POST", path := "/a" } { verb := "GET", path := "/a/b" } = -1
    ∧ compareEndpoints { verb := "GET", path := "/a/b" } { verb := "POST", path := "/a" } = 1 :=
  (sort_tie_break_amended { verb := "POST", path := "/a" }
      { verb := "GET", path := "/a/b" }).1 (by decide)

theorem groupNameOf_eq_none_of_second_empty (e : FlowEndpoint)
    (h : (jsSplitSlash e.path).getD 1 "" = "") : groupNameOf e = none := by
  unfold groupNameOf
  cases hg : (jsSplitSlash e.path)[1]? with
  | none => rfl
  | some p =>
      have hp : p = "" := by
        rw [List.getD_eq_getElem?_getD, hg] at h
        simpa using h
      simp [hp]

theorem foldl_groups_of_none (f : NangoSyncConfig) (es : List FlowEndpoint)
    (h : ∀ e ∈ es, groupNameOf e = none)
    (tmp : List (String × List FlowWithEndpoint)) :
    es.foldl (fun acc e =>
        match groupNameOf e with
        | none => acc
        | some g => pushToGroup acc g { flow := f, endpoint := e }) tmp = tmp := by
  induction es generalizing tmp with
  | nil => rfl
  | cons e es ih =>
      rw [List.foldl_cons]
      have he := h e (List.mem_cons_self e es)
      simp only [he]
      exact ih (fun e' he' => h e' (List.mem_cons_of_mem _ he')) tmp

/-- C10: a flow every endpoint of which has an empty (or missing) first path
segment — for example path "/" or the empty string — contributes nothing to
the grouped presentation: it is placed in no group at all, not even the
"others" bucket, so removing it from the input leaves `byGroup` unchanged. -/
theorem grouping_drops_empty_first_segment (l1 l2 : List NangoSyncConfig)
    (f : NangoSyncConfig)
    (h : ∀ e ∈ f.endpoints, (jsSplitSlash e.path).getD 1 "" = "") :
    byGroup (l1 ++ f :: l2) = byGroup (l1 ++ l2) := by
  have hnone : ∀ e ∈ f.endpoints, groupNameOf e = none :=
    fun e he => groupNameOf_eq_none_of_second_empty e (h e he)
  have hadd : ∀ tmp, addFlowToGroups tmp f = tmp := by
    intro tmp
    unfold addFlowToGroups
    exact foldl_groups_of_none f f.endpoints hnone tmp
  unfold byGroup
  congr 1
  unfold buildGroups
  rw [List.foldl_append, List.foldl_append, List.foldl_cons, hadd]

/-- A flow whose only endpoint is GET on path "/", used in the C10 witness. -/
def flowRootOnly : NangoSyncConfig :=
  { name := "w10", type := "sync", returns := [],
    endpoints := [{ verb := "GET", path := "/" }], enabled := false, id := none }

theorem grouping_drops_empty_first_segment_witness :
    byGroup ([] ++ flowRootOnly :: []) = byGroup ([] ++ []) :=
  grouping_drops_empty_first_segment [] [] flowRootOnly (by decide)

end Nango
